import Mathlib

/-!
# Verification of the Online-Docuphile download backend

Shallow embedding of the download orchestration layer of the
Online-Docuphile repository (Node.js/Express backend):

* `src/backend/src/services/videoDownloader.js` — URL classifier,
  quality selection, primary/fallback video download dispatch;
* `src/backend/src/utils/downloadUtils.js` — filename sanitizers,
  extension derivation, the streaming fetcher `downloadFile`;
* `src/backend/src/controllers/authController.js` — the batch
  orchestrators `downloadMultiple` and `batchDownloadVideos`, and the
  per-item download record lifecycle.

JS strings are modelled as `String`/`List Char`; the asynchronous,
stateful parts (HTTP responses, the persisted records, the temp files
on disk) are modelled by explicit data passed in and returned: an HTTP
exchange is an `Except NetFailure HttpResponse` value, the per-item
download outcome is an oracle function `String → Except String ItemSuccess`,
the sequence of states a persisted record is saved in is returned as an
explicit list, and "a temp file of this attempt remains on disk" is an
explicit `Bool` component of the fetcher's result.
-/

deriving instance DecidableEq for Except

namespace Docuphile

/-! ## Character and character-list utilities -/

/-- ASCII lower-casing of one character (the behaviour of
`String.prototype.toLowerCase` / the WHATWG host parser on the ASCII
hosts this application deals with). -/
def lowerChar (c : Char) : Char :=
  if 'A' ≤ c ∧ c ≤ 'Z' then Char.ofNat (c.toNat + 32) else c

/-- `isPre pat s` : `pat` is a prefix of `s` (JS `String.prototype.startsWith`). -/
def isPre : List Char → List Char → Bool
  | [], _ => true
  | _ :: _, [] => false
  | a :: as, b :: bs => a = b && isPre as bs

/-- `listIncludes pat s` : `pat` occurs contiguously inside `s`
(JS `String.prototype.includes`). -/
def listIncludes (pat : List Char) : List Char → Bool
  | [] => pat.isEmpty
  | c :: rest => isPre pat (c :: rest) || listIncludes pat rest

/-- JS `s.includes(pat)` on strings. -/
def strIncludes (s pat : String) : Bool :=
  listIncludes pat.data s.data

/-- Does the character `c` occur in `l`? -/
def containsC (c : Char) (l : List Char) : Bool :=
  l.any (fun x => x = c)

/-- The characters strictly after the last occurrence of `c` in `l`
(`l` itself when `c` does not occur). -/
def afterLast (c : Char) (l : List Char) : List Char :=
  (l.reverse.takeWhile (fun x => !(x = c : Bool))).reverse

/-- Drop all trailing occurrences of `c`. -/
def dropTrailing (c : Char) (l : List Char) : List Char :=
  (l.reverse.dropWhile (fun x => (x = c : Bool))).reverse

/-! ## URL parsing

The repository relies on the Node.js WHATWG `URL` class.  The
definitions below model `new URL(url).hostname` / `.pathname` for the
`http:`/`https:` URLs this application handles: the authority is what
follows the scheme up to the first `/`, `?` or `#`; user-info (up to
the last `@`) and a `:port` suffix are stripped from it; the hostname
is lower-cased by the parser; the pathname is what follows the
authority up to the first `?` or `#`, defaulting to `/`.  A string the
`URL` constructor would reject (no `http`/`https` scheme, or an empty
host) parses to `none`, which models the constructor throwing. -/

/-- Strip a case-insensitive `http://` or `https://` scheme. -/
def schemeRest (url : List Char) : Option (List Char) :=
  let low := url.map lowerChar
  if isPre "https://".data low then some (url.drop 8)
  else if isPre "http://".data low then some (url.drop 7)
  else none

/-- Model of `new URL(url)`: returns `(hostname, pathname)`, or `none`
when the constructor would throw. -/
def parseUrl (url : String) : Option (List Char × List Char) :=
  match schemeRest url.data with
  | none => none
  | some rest =>
    let authority := rest.takeWhile (fun c => !(c = '/' || c = '?' || c = '#' : Bool))
    let hostport := afterLast '@' authority
    let hostname := hostport.takeWhile (fun c => !(c = ':' : Bool))
    if hostname.isEmpty then none
    else
      let tail := rest.drop authority.length
      let pathname := tail.takeWhile (fun c => !(c = '?' || c = '#' : Bool))
      some (hostname.map lowerChar, if pathname.isEmpty then ['/'] else pathname)

/-- `new URL(url).hostname` (already lower-cased by the parser). -/
def parseHostname (url : String) : Option String :=
  (parseUrl url).map (fun p => ⟨p.1⟩)

/-- `new URL(url).pathname`. -/
def parsePathname (url : String) : Option (List Char) :=
  (parseUrl url).map (fun p => p.2)

/-! ## The URL classifier (`VideoDownloader.isSocialMediaUrl`) -/

/-- The static platform table `this.supportedPlatforms`
(videoDownloader.js lines 25-70), in insertion order. -/
def supportedPlatforms : List (String × List String) :=
  [ ("youtube", ["youtube.com", "youtu.be", "youtube-nocookie.com", "m.youtube.com"]),
    ("instagram", ["instagram.com", "www.instagram.com", "instagr.am"]),
    ("twitter", ["twitter.com", "x.com", "t.co"]),
    ("tiktok", ["tiktok.com", "www.tiktok.com", "vm.tiktok.com"]),
    ("facebook", ["facebook.com", "fb.com", "fb.watch"]),
    ("linkedin", ["linkedin.com"]),
    ("reddit", ["reddit.com", "v.redd.it"]),
    ("twitch", ["twitch.tv", "clips.twitch.tv"]),
    ("vimeo", ["vimeo.com"]),
    ("dailymotion", ["dailymotion.com", "dai.ly"]) ]

/-- The classifier's result object `{ isSocialMedia, platform }`. -/
structure ClassifyResult where
  isSocialMedia : Bool
  platform : Option String
deriving DecidableEq

/-- The platform loop of `isSocialMediaUrl` (videoDownloader.js lines
78-84): the first platform one of whose domains occurs as a substring
of the lower-cased hostname wins (`hostname.includes(domain)`). -/
def classifyHost (hostname : String) : ClassifyResult :=
  match supportedPlatforms.find? (fun p => p.2.any (fun d => strIncludes hostname d)) with
  | some p => ⟨true, some p.1⟩
  | none => ⟨false, none⟩

/-- `VideoDownloader.isSocialMediaUrl` (videoDownloader.js lines 73-88):
parse the URL, lower-case the hostname, run the platform loop; a URL
the parser rejects classifies as not matched. -/
def isSocialMediaUrl (url : String) : ClassifyResult :=
  match parseHostname url with
  | some h => classifyHost h
  | none => ⟨false, none⟩

/-- Suffix-matching membership test: the hostname equals the domain or
ends with the domain. -/
def hostSuffixMatch (hostname domain : String) : Bool :=
  isPre domain.data.reverse hostname.data.reverse

/-- The classifier as claim C3 words it: membership of the host in a
static table of platform host-SUFFIX sets (written to be compared with
`classifyHost`, which the source implements with substring
containment). -/
def classifyHostSuffixSpec (hostname : String) : ClassifyResult :=
  match supportedPlatforms.find? (fun p => p.2.any (fun d => hostSuffixMatch hostname d)) with
  | some p => ⟨true, some p.1⟩
  | none => ⟨false, none⟩

/-- The whole classifier as claim C3 words it (host-suffix matching). -/
def isSocialMediaUrlSuffixSpec (url : String) : ClassifyResult :=
  match parseHostname url with
  | some h => classifyHostSuffixSpec h
  | none => ⟨false, none⟩

/-! ## Filename sanitizers (`downloadUtils.js`)

The repository contains two versions of `sanitizeFileName`: the one at
downloadUtils.js lines 91-97 (`.replace(/\.\./g,'_')`, then
`.replace(/[\/\\:*?"<>|]/g,'_')`, then `.substring(0,255)`), and the
variant at lines 328-330 (`.replace(/[^a-zA-Z0-9._-]/g,'_')` then
`.substring(0,255)`). -/

/-- JS `s.replace(/\.\./g, '_')`: each non-overlapping, leftmost-first
occurrence of `..` becomes one `_`. -/
def replaceDotDot : List Char → List Char
  | a :: b :: rest =>
    if a = '.' ∧ b = '.' then '_' :: replaceDotDot rest
    else a :: replaceDotDot (b :: rest)
  | l => l

/-- The characters removed by the second replace of `sanitizeFileName`
(the class `[\/\\:*?"<>|]`). -/
def invalidChar (c : Char) : Bool :=
  c = '/' || c = '\\' || c = ':' || c = '*' || c = '?' ||
  c = '"' || c = '<' || c = '>' || c = '|'

/-- `sanitizeFileName` (downloadUtils.js lines 91-97). -/
def sanitizeFileName (fileName : String) : String :=
  ⟨((replaceDotDot fileName.data).map
      (fun c => if invalidChar c then '_' else c)).take 255⟩

/-- The character class `[a-zA-Z0-9._-]` kept by the alternate sanitizer. -/
def altAllowedChar (c : Char) : Bool :=
  c.isAlphanum || c = '.' || c = '_' || c = '-'

/-- The alternate `sanitizeFileName` (downloadUtils.js lines 328-330):
`fileName.replace(/[^a-zA-Z0-9._-]/g, '_').substring(0, 255)`. -/
def sanitizeFileNameAlt (fileName : String) : String :=
  ⟨(fileName.data.map (fun c => if altAllowedChar c then c else '_')).take 255⟩

/-- Does the character list contain two adjacent dots? -/
def hasDotDot : List Char → Bool
  | a :: b :: rest => (a = '.' && b = '.') || hasDotDot (b :: rest)
  | _ => false

/-- Does the character list start with a dot? -/
def startsDot : List Char → Bool
  | c :: _ => c = '.'
  | [] => false

theorem hasDotDot_cons (a : Char) (l : List Char) :
    hasDotDot (a :: l) = ((a = '.' && startsDot l) || hasDotDot l) := by
  cases l with
  | nil => simp [hasDotDot, startsDot]
  | cons b rest => simp [hasDotDot, startsDot]

theorem startsDot_replaceDotDot (l : List Char) :
    startsDot (replaceDotDot l) = true → startsDot l = true := by
  match l with
  | [] => simp [replaceDotDot]
  | [a] => simp [replaceDotDot]
  | a :: b :: rest =>
    simp only [replaceDotDot]
    split
    · simp [startsDot]
    · simp [startsDot]

theorem hasDotDot_replaceDotDot (l : List Char) :
    hasDotDot (replaceDotDot l) = false := by
  match l with
  | [] => simp [replaceDotDot, hasDotDot]
  | [a] => simp [replaceDotDot, hasDotDot]
  | a :: b :: rest =>
    simp only [replaceDotDot]
    split
    case isTrue h =>
      have h1 : (('_' = '.' : Bool)) = false := by decide
      rw [hasDotDot_cons, hasDotDot_replaceDotDot rest, h1]
      simp
    case isFalse h =>
      rw [hasDotDot_cons, hasDotDot_replaceDotDot (b :: rest)]
      simp only [Bool.or_false]
      by_cases ha : a = '.'
      · subst ha
        have hb : ¬ b = '.' := fun hb => h ⟨rfl, hb⟩
        have hsb : startsDot (replaceDotDot (b :: rest)) = false := by
          cases hsd : startsDot (replaceDotDot (b :: rest)) with
          | false => rfl
          | true =>
            have hstart := startsDot_replaceDotDot (b :: rest) hsd
            simp only [startsDot, decide_eq_true_eq] at hstart
            exact absurd hstart hb
        simp [hsb]
      · simp [ha]
termination_by l.length

theorem hasDotDot_map_of_dot_reflecting (f : Char → Char)
    (hf : ∀ c, f c = '.' → c = '.') (l : List Char) :
    hasDotDot l = false → hasDotDot (l.map f) = false := by
  induction l with
  | nil => simp [hasDotDot]
  | cons a rest ih =>
    intro h
    rw [hasDotDot_cons] at h
    rw [List.map_cons, hasDotDot_cons]
    rcases Bool.or_eq_false_iff.mp h with ⟨h1, h2⟩
    rw [ih h2, Bool.or_false]
    rcases Bool.and_eq_false_iff.mp h1 with h1a | h1b
    · have : ¬ f a = '.' := by
        intro hfa
        have := hf a hfa
        simp [this] at h1a
      simp [this]
    · have : startsDot (rest.map f) = false := by
        cases rest with
        | nil => simp [startsDot]
        | cons b bs =>
          simp only [startsDot, List.map_cons] at h1b ⊢
          cases hfb : (decide (f b = '.')) with
          | false => rfl
          | true =>
            have hb := hf b (of_decide_eq_true hfb)
            rw [hb] at h1b
            simp at h1b
      simp [this]

theorem startsDot_take (l : List Char) (n : Nat) :
    startsDot (l.take n) = true → startsDot l = true := by
  cases l with
  | nil => simp [List.take_nil]
  | cons a rest =>
    cases n with
    | zero => simp [startsDot]
    | succ m => simp [List.take_succ_cons, startsDot]

theorem hasDotDot_take (l : List Char) (n : Nat) :
    hasDotDot l = false → hasDotDot (l.take n) = false := by
  induction l generalizing n with
  | nil => simp [List.take_nil]
  | cons a rest ih =>
    intro h
    cases n with
    | zero => simp [hasDotDot]
    | succ m =>
      rw [hasDotDot_cons] at h
      rcases Bool.or_eq_false_iff.mp h with ⟨h1, h2⟩
      rw [List.take_succ_cons, hasDotDot_cons, ih m h2, Bool.or_false]
      rcases Bool.and_eq_false_iff.mp h1 with h1a | h1b
      · simp [h1a]
      · have : startsDot (rest.take m) = false := by
          cases hsd : startsDot (rest.take m) with
          | false => rfl
          | true => rw [startsDot_take rest m hsd] at h1b; simp at h1b
        simp [this]

/-! ## File-extension derivation (`downloadUtils.js` lines 26-89) -/

/-- The `mimeMap` table of `getFileExtension` (downloadUtils.js lines 43-70). -/
def mimeMap : List (String × String) :=
  [ ("image/jpeg", "jpg"), ("image/jpg", "jpg"), ("image/png", "png"),
    ("image/gif", "gif"), ("image/webp", "webp"), ("image/bmp", "bmp"),
    ("application/pdf", "pdf"), ("application/msword", "doc"),
    ("application/vnd.openxmlformats-officedocument.wordprocessingml.document", "docx"),
    ("application/vnd.ms-excel", "xls"),
    ("application/vnd.openxmlformats-officedocument.spreadsheetml.sheet", "xlsx"),
    ("text/plain", "txt"), ("text/csv", "csv"), ("application/zip", "zip"),
    ("application/x-rar-compressed", "rar"), ("application/x-7z-compressed", "7z"),
    ("application/x-tar", "tar"), ("application/gzip", "gz"),
    ("video/mp4", "mp4"), ("video/x-msvideo", "avi"), ("video/quicktime", "mov"),
    ("video/x-ms-wmv", "wmv"), ("audio/mpeg", "mp3"), ("audio/wav", "wav"),
    ("audio/aac", "aac"), ("audio/flac", "flac") ]

/-- JS `String.prototype.trim`. -/
def trimSpaces (l : List Char) : List Char :=
  ((l.dropWhile Char.isWhitespace).reverse.dropWhile Char.isWhitespace).reverse

/-- `contentType.split(';')[0].trim()` (downloadUtils.js line 72). -/
def ctClean (contentType : String) : String :=
  ⟨trimSpaces (contentType.data.takeWhile (fun c => !(c = ';' : Bool)))⟩

/-- The content-type branch of `getFileExtension` (lines 42-74): an
empty content-type, or one missing from `mimeMap`, yields the `"bin"`
sentinel (`mimeMap[cleanContentType] || 'bin'`). -/
def ctExtension (contentType : String) : String :=
  if contentType = "" then "bin"
  else
    match mimeMap.find? (fun e => e.1 = ctClean contentType) with
    | some e => e.2
    | none => "bin"

/-- The match of `/\.([a-zA-Z0-9]+)(?:[?#]|$)/` against a pathname
(which never contains `?` or `#`): the regex matches exactly when the
part after the last dot is non-empty and entirely alphanumeric, and
captures that part. -/
def pathExtMatch (pathname : List Char) : Option (List Char) :=
  let tailPart := afterLast '.' pathname
  if containsC '.' pathname && !tailPart.isEmpty && tailPart.all Char.isAlphanum
  then some tailPart else none

/-- `getFileExtension` (downloadUtils.js lines 26-80): first try the
URL pathname's extension (lower-cased, kept only when at most 10
characters), then fall back to the content-type table; a URL the `URL`
constructor rejects takes the catch branch and yields `"bin"`. -/
def getFileExtension (url : String) (contentType : String) : String :=
  match parsePathname url with
  | none => "bin"
  | some pathname =>
    match pathExtMatch pathname with
    | some extChars =>
      let ext : String := ⟨extChars.map lowerChar⟩
      if ext.length ≤ 10 then ext else ctExtension contentType
    | none => ctExtension contentType

/-- `isSupportedFileType` (downloadUtils.js lines 82-89): absent
content-type is allowed; otherwise the main type (before the first `/`,
after cutting any `;` parameters) must be one of five broad categories. -/
def isSupportedFileType (contentType : String) : Bool :=
  if contentType = "" then true
  else
    let mainType : String :=
      ⟨(contentType.data.takeWhile (fun c => !(c = ';' : Bool))).takeWhile
        (fun c => !(c = '/' : Bool))⟩
    ["image", "application", "text", "video", "audio"].contains mainType

/-- Model of Node `path.extname(name) = ''` on a bare file name: no
dot at all, the only dot is the leading character (`.bashrc`), or the
name is exactly `..`. -/
def extnameEmpty (name : String) : Bool :=
  match name.data with
  | [] => true
  | c :: rest =>
    if !(containsC '.' (c :: rest)) then true
    else if (c :: rest) = ['.', '.'] then true
    else if c = '.' then !(containsC '.' rest)
    else false

/-- Model of Node `path.basename` on a POSIX path: trailing slashes
are dropped, then everything after the last `/` is returned. -/
def basenameL (p : List Char) : List Char :=
  afterLast '/' (dropTrailing '/' p)

/-! ## The streaming fetcher (`downloadFile`, downloadUtils.js lines 99-235)

The HTTP exchange is modelled by an `Except NetFailure HttpResponse`
argument; the body is a list of chunk byte-lengths, delivered in order.
The second component of the result records whether a file of this
attempt remains on disk when the attempt ends: `false` on the failure
paths whose throw occurs in the async function body and therefore
reaches the catch block (which unlinks the temp path, line 218);
`true` on success (the temp file has been renamed to the returned
`filePath`); and `true` on the mid-stream size violation, whose throw
happens inside a stream `'data'` event handler and never reaches the
catch (see `FetchOutcome`). -/

/-- The ways the `axios` call itself rejects and how the catch block of
lines 215-234 words them: `ECONNABORTED` (timeout), `ENOTFOUND` (DNS),
a non-200 status (rejected by `validateStatus`, carried as
`error.response`), or any other failure whose message passes through. -/
inductive NetFailure where
  | timeout
  | dnsFailure
  | badStatus (status : Nat)
  | other (msg : String)
deriving DecidableEq

/-- The error-message enhancement of downloadUtils.js lines 224-231. -/
def netFailureMessage : NetFailure → String
  | .timeout => "Download timeout"
  | .dnsFailure => "Cannot resolve URL"
  | .badStatus s => "Server responded with " ++ toString s
  | .other m => m

/-- The options object of `downloadFile`, with the defaults of
lines 100-105 (`DOWNLOAD_TIMEOUT` = 30000 ms, `MAX_FILE_SIZE` = 100 MB). -/
structure DownloadOptions where
  timeout : Nat := 30000
  maxSize : Nat := 104857600
  customFileName : Option String := none
deriving DecidableEq

/-- A successfully established HTTP response.  `contentLength` is the
parsed `content-length` header (`none` models an absent or unparsable
header, whose `parseInt` is `NaN` and falsy); it is a claim, not a
bound on `chunks`.  `dispositionName` is the filename captured by the
`Content-Disposition` regex of lines 144-149 with quotes stripped
(`none` models an absent header or a failed match). -/
structure HttpResponse where
  status : Nat := 200
  statusText : String := ""
  contentType : Option String := none
  contentLength : Option Nat := none
  dispositionName : Option String := none
  chunks : List Nat := []
deriving DecidableEq

/-- The success descriptor returned by `downloadFile` (lines 206-213). -/
structure FileResult where
  filePath : String
  fileName : String
  fileSize : Nat
  contentType : String
  originalUrl : String
deriving DecidableEq

/-- The observable outcome of one `downloadFile` call.  A throw from
the body of the async function propagates to the catch block of lines
215-234: `failed` — the temp path is unlinked and an enhanced error
is re-thrown to the caller.  The mid-stream size check of lines
173-179, however, throws from inside a stream `'data'` event handler;
an exception raised there cannot propagate to the enclosing
`try`/`catch` — it escapes `emit` to the event loop, where the entry
point's process-level `uncaughtException` handler logs and calls
`process.exit(1)`: `crashed` — the catch never runs, no failure is
surfaced to the caller, and the partial temp file stays on disk. -/
inductive FetchOutcome where
  | ok (result : FileResult)
  | failed (msg : String)
  | crashed (msg : String)
deriving DecidableEq

/-- The temp directory (`path.join(__dirname, '../temp')`), as an
abstract path. -/
def tempDirPath : String := "temp"

/-- The streaming loop of lines 171-182: a running byte count is
accumulated chunk by chunk; the moment it exceeds `maxSize` the
streams are destroyed and the transfer fails (`none`); otherwise the
total number of bytes written is returned. -/
def streamBody (maxSize : Nat) : List Nat → Nat → Option Nat
  | [], acc => some acc
  | c :: rest, acc =>
    if maxSize < acc + c then none else streamBody maxSize rest (acc + c)

/-- JS truthiness of a possibly-absent string (`undefined` and `''`
are both falsy). -/
def strTruthy : Option String → Bool
  | some s => !(s = "" : Bool)
  | none => false

/-- The header check of line 138: `contentLength && contentLength > maxSize`. -/
def contentLengthExceeds (contentLength : Option Nat) (maxSize : Nat) : Bool :=
  match contentLength with
  | some n => !(n = 0 : Bool) && decide (maxSize < n)
  | none => false

/-- The `originalFileName` derivation of lines 142-168: the name parsed
from `Content-Disposition` if any, else the URL pathname's basename
when it is non-empty and contains a dot, else `'downloaded_file'`. -/
def originalNameOf (dispositionName : Option String) (url : String) : String :=
  let nameFromHeader := dispositionName.getD ""
  let nameAfterUrl :=
    if nameFromHeader = "" then
      match parsePathname url with
      | some pathname =>
        let urlFileName : String := ⟨basenameL pathname⟩
        if !(urlFileName = "" : Bool) && strIncludes urlFileName "." then
          urlFileName
        else ""
      | none => ""
    else nameFromHeader
  if nameAfterUrl = "" then "downloaded_file" else nameAfterUrl

/-- The `finalFileName` derivation of lines 184-200: a truthy
caller-supplied name is used verbatim, anything else is sanitized; a
name without an extension gets `getFileExtension`'s answer appended
unless that answer is the `"bin"` sentinel. -/
def finalNameOf (customFileName : Option String) (originalFileName url contentType : String) :
    String :=
  let baseFileName :=
    if strTruthy customFileName then customFileName.getD ""
    else sanitizeFileName originalFileName
  if extnameEmpty baseFileName then
    let ext := getFileExtension url contentType
    if !(ext = "bin" : Bool) then baseFileName ++ "." ++ ext
    else baseFileName
  else baseFileName

/-- `downloadFile` (downloadUtils.js lines 99-235).  The explicit
running-count check of lines 173-180 is the only mid-stream bound
modelled (axios's `maxContentLength` applies to buffered responses).
Errors thrown in the function body (network rejection, non-200,
unsupported type, oversized content-length header) reach the catch
block, which deletes the temp path before re-surfacing the failure,
so every `.failed` pairs with `false`.  The mid-stream size violation
destroys both streams (the transfer is aborted) but its `throw` fires
inside the `'data'` handler and escapes the catch entirely: the
attempt ends `.crashed`, the unlink never runs, and the partial temp
file remains on disk (`true`). -/
def downloadFile (url : String) (options : DownloadOptions) (tempFileName : String)
    (response : Except NetFailure HttpResponse) :
    FetchOutcome × Bool :=
  match response with
  | .error e => (.failed (netFailureMessage e), false)
  | .ok r =>
    if r.status ≠ 200 then
      (.failed ("HTTP " ++ toString r.status ++ ": " ++ r.statusText), false)
    else
      let contentType := r.contentType.getD ""
      if !(isSupportedFileType contentType) then
        (.failed "Unsupported file type", false)
      else if contentLengthExceeds r.contentLength options.maxSize then
        (.failed ("File size exceeds limit of " ++
                  toString (options.maxSize / (1024 * 1024)) ++ "MB"), false)
      else
        let originalFileName := originalNameOf r.dispositionName url
        match streamBody options.maxSize r.chunks 0 with
        | none => (.crashed "File size exceeded during download", true)
        | some fileSize =>
          let finalFileName :=
            finalNameOf options.customFileName originalFileName url contentType
          let finalPath := tempDirPath ++ "/" ++ tempFileName ++ "_" ++ finalFileName
          (.ok { filePath := finalPath, fileName := finalFileName,
                 fileSize := fileSize, contentType := contentType,
                 originalUrl := url }, true)

/-! ## The filename derivation as amended claim C5 words it

Spec-side reformulation of the derivation, to be proved equal to what
`downloadFile` computes. -/

/-- The URL-basename candidate: the last path segment, available only
when non-empty and containing a dot. -/
def urlDottedBasename (url : String) : Option String :=
  match parsePathname url with
  | some pathname =>
    let b : String := ⟨basenameL pathname⟩
    if !(b = "" : Bool) && strIncludes b "." then some b else none
  | none => none

/-- Base-name priority: a non-empty caller-supplied name wins verbatim;
otherwise the sanitized form of the first available of: a non-empty
Content-Disposition name, the dotted URL basename, the generated
fallback `downloaded_file`. -/
def specBaseName (custom dispositionName : Option String) (url : String) : String :=
  if strTruthy custom then custom.getD ""
  else
    sanitizeFileName
      (if strTruthy dispositionName then dispositionName.getD ""
       else (urlDottedBasename url).getD "downloaded_file")

/-- The content-type table as a partial lookup: `none` for an absent or
unknown content-type. -/
def ctTableLookup (contentType : String) : Option String :=
  if contentType = "" then none
  else (mimeMap.find? (fun e => e.1 = ctClean contentType)).map (fun e => e.2)

/-- The extension source: first the URL pathname's lower-cased,
at-most-10-character extension, else the content-type table, else
nothing (also nothing when the URL does not parse). -/
def specExtensionChoice (url contentType : String) : Option String :=
  match parsePathname url with
  | none => none
  | some pathname =>
    match pathExtMatch pathname with
    | some extChars =>
      let ext : String := ⟨extChars.map lowerChar⟩
      if ext.length ≤ 10 then some ext else ctTableLookup contentType
    | none => ctTableLookup contentType

/-- The filename derivation as amended claim C5 states it.  A derived
extension literally equal to `"bin"` is never appended, because the
source uses `"bin"` as its unknown-extension sentinel. -/
def specDerivedName (custom dispositionName : Option String) (url contentType : String) :
    String :=
  let base := specBaseName custom dispositionName url
  if extnameEmpty base then
    match specExtensionChoice url contentType with
    | some ext => if ext = "bin" then base else base ++ "." ++ ext
    | none => base
  else base

/-- The derivation as original claim C5 words it: the appended
extension is obtained by mapping the response content-type through the
known extension table, unknown content-types yielding no extension
(written to be compared with what the source computes, which consults
the URL path first). -/
def claimC5Name (custom dispositionName : Option String) (url contentType : String) :
    String :=
  let base := specBaseName custom dispositionName url
  if extnameEmpty base then
    match ctTableLookup contentType with
    | some ext => base ++ "." ++ ext
    | none => base
  else base

/-! ## Video quality selection (`VideoDownloader.parseQuality` and
`downloadWithYtdlp`, videoDownloader.js lines 120-205 and 298-313) -/

/-- The `qualityMap` object of `parseQuality` (lines 299-310). -/
def qualityMap : List (String × Nat) :=
  [ ("144p", 144), ("240p", 240), ("360p", 360), ("480p", 480),
    ("720p", 720), ("1080p", 1080), ("1440p", 1440), ("2160p", 2160),
    ("best", 9999), ("lowest", 144) ]

/-- `parseQuality` (lines 298-313): `qualityMap[quality] || 720`.
Every value of the table is non-zero, hence truthy, so a hit is always
returned and any other string falls back to 720. -/
def parseQuality (quality : String) : Nat :=
  match qualityMap.find? (fun e => e.1 = quality) with
  | some e => e.2
  | none => 720

/-- The quality-dependent part of the yt-dlp argument list. -/
inductive QualityArgs where
  | audioExtract
  | heightCap (h : Nat)
deriving DecidableEq

/-- Lines 146-151 of `downloadWithYtdlp`: the `"audio"` sentinel
diverts to `--extract-audio --audio-format mp3` before any resolution
selection; every other quality string goes through `parseQuality` into
a `height<=` format filter. -/
def selectQualityArgs (quality : String) : QualityArgs :=
  if quality = "audio" then .audioExtract
  else .heightCap (parseQuality quality)

/-! ## Video download dispatch (`VideoDownloader.downloadVideo`,
videoDownloader.js lines 207-226)

The two clients are external processes; their outcomes are oracle
arguments.  The returned list records which clients were invoked, in
order. -/

/-- The metadata a successful per-item download returns to the
controllers (the fields they read from the result object). -/
structure ItemSuccess where
  fileName : String
  fileSize : Nat
  duration : Nat := 0
deriving DecidableEq

/-- The download clients `downloadVideo` can invoke. -/
inductive VideoTool where
  | ytdlCore
  | ytdlp
deriving DecidableEq

/-- `VideoDownloader.downloadVideo` (lines 207-226): an unmatched URL
fails before any client runs; a `youtube` URL tries the native
`ytdl-core` path first and on any failure transparently retries with
yt-dlp, the caller seeing only the final outcome; every other platform
goes straight to yt-dlp. -/
def downloadVideo (url : String)
    (ytdlCoreOutcome ytdlpOutcome : Except String ItemSuccess) :
    Except String ItemSuccess × List VideoTool :=
  match (isSocialMediaUrl url).platform with
  | none => (.error "URL is not from a supported social media platform", [])
  | some platform =>
    if platform = "youtube" then
      match ytdlCoreOutcome with
      | .ok r => (.ok r, [.ytdlCore])
      | .error _ => (ytdlpOutcome, [.ytdlCore, .ytdlp])
    else (ytdlpOutcome, [.ytdlp])

/-! ## Download records and the batch orchestrators
(`authController.js` download/video controllers)

A persisted record is modelled by the fields the controllers write;
`itemRecordStates` is the ordered sequence of states in which one batch
item's record is saved (`Download.create`, then each `record.save()`). -/

/-- The `status` enum of the Download schema. -/
inductive DStatus where
  | pending
  | downloading
  | completed
  | failed
deriving DecidableEq

/-- Is a status terminal? -/
def isTerminal : DStatus → Bool
  | .completed => true
  | .failed => true
  | _ => false

/-- The forward transitions of the record lifecycle. -/
def allowedStep : DStatus → DStatus → Bool
  | .pending, .downloading => true
  | .downloading, .completed => true
  | .downloading, .failed => true
  | _, _ => false

/-- A persisted download record (the fields the download controllers
write; `user`, timestamps of the schema and the video `metadata` object
are orthogonal to the claims). -/
structure DownloadRecord where
  fileUrl : String
  status : DStatus
  fileName : Option String := none
  fileSize : Option Nat := none
  error : Option String := none
  completedAt : Bool := false
deriving DecidableEq

/-- The ordered sequence of saved states of one batch item's record
(authController.js lines 185-193 create it `pending`; lines 202-236 set
it `downloading`, run the download, and set exactly one terminal
state). -/
def itemRecordStates (url : String) (outcome : Except String ItemSuccess) :
    List DownloadRecord :=
  [ { fileUrl := url, status := .pending },
    { fileUrl := url, status := .downloading },
    match outcome with
    | .ok s =>
      { fileUrl := url, status := .completed, fileName := some s.fileName,
        fileSize := some s.fileSize, completedAt := true }
    | .error e => { fileUrl := url, status := .failed, error := some e } ]

/-- The saved states of a `downloadSingle` record (lines 118-171): it
is created already `downloading` with `fileName || 'pending'`, then
reaches exactly one terminal state. -/
def singleRecordStates (url : String) (fileName : Option String)
    (outcome : Except String ItemSuccess) : List DownloadRecord :=
  let initialName := if strTruthy fileName then fileName.getD "" else "pending"
  [ { fileUrl := url, status := .downloading, fileName := some initialName },
    match outcome with
    | .ok s =>
      { fileUrl := url, status := .completed, fileName := some s.fileName,
        fileSize := some s.fileSize, completedAt := true }
    | .error e =>
      { fileUrl := url, status := .failed, fileName := some initialName,
        error := some e } ]

/-- One entry of the `results` array sent back by the batch endpoints. -/
structure ItemResult where
  success : Bool
  url : String
  fileName : Option String := none
  fileSize : Option Nat := none
  duration : Option Nat := none
  error : Option String := none
deriving DecidableEq

/-- The per-item result entry of `downloadMultiple` (lines 220-235). -/
def processItem (url : String) (outcome : Except String ItemSuccess) : ItemResult :=
  match outcome with
  | .ok s => { success := true, url := url,
               fileName := some s.fileName, fileSize := some s.fileSize }
  | .error e => { success := false, url := url, error := some e }

/-- The per-item result entry of `batchDownloadVideos` (lines 581-598),
which additionally carries the duration on success. -/
def processVideoItem (url : String) (outcome : Except String ItemSuccess) : ItemResult :=
  match outcome with
  | .ok s => { success := true, url := url,
               fileName := some s.fileName, fileSize := some s.fileSize,
               duration := some s.duration }
  | .error e => { success := false, url := url, error := some e }

/-- The `summary` object of the batch responses. -/
structure BatchSummary where
  total : Nat
  successful : Nat
  failed : Nat
deriving DecidableEq

/-- The 200 response body of the batch endpoints. -/
structure BatchResponse where
  results : List ItemResult
  summary : BatchSummary
deriving DecidableEq

/-- JS `x || d` on a possibly-absent number (`undefined` and `0` are falsy). -/
def jsOrNat (x : Option Nat) (d : Nat) : Nat :=
  match x with
  | some n => if n = 0 then d else n
  | none => d

/-- The options object of `downloadMultiple`. -/
structure MultiOptions where
  maxConcurrent : Option Nat := none
deriving DecidableEq

/-- The windowed loop of lines 198-241: slices of `cap` URLs are
processed in sequence; inside a window `Promise.all` runs the items
concurrently and delivers their results in slice order (by input
index), never in completion order.  The loop never runs with `cap = 0`
(the controller clamps the cap into `1..5`); that case is mapped to the
empty result here. -/
def processWindowsAux (f : String → ItemResult) (cap : Nat) :
    Nat → List String → List ItemResult
  | _, [] => []
  | 0, _ :: _ => []
  | fuel + 1, u :: rest =>
    ((u :: rest).take cap).map f ++
      processWindowsAux f cap fuel ((u :: rest).drop cap)

/-- The window loop, entered with enough fuel for every iteration (each
iteration consumes at least one URL when `cap ≥ 1`, which the
controller guarantees). -/
def processWindows (f : String → ItemResult) (cap : Nat) (urls : List String) :
    List ItemResult :=
  processWindowsAux f cap urls.length urls

/-- The summary of lines 248-252 and 607-611: `successful` and `failed`
re-scan the results array. -/
def summarize (total : Nat) (results : List ItemResult) : BatchSummary :=
  { total := total,
    successful := (results.filter (fun r => r.success)).length,
    failed := (results.filter (fun r => !r.success)).length }

/-- `downloadMultiple` (authController.js lines 173-254).  The per-item
download outcome is the oracle `perItem`; the second component is the
per-item record-state sequence of every URL (records are created for
all URLs, in input order, before any download runs).  Validation
failure (empty input) is a caller error before any record exists. -/
def downloadMultiple (urls : List String) (options : MultiOptions)
    (perItem : String → Except String ItemSuccess) :
    Except String BatchResponse × List (List DownloadRecord) :=
  if urls = [] then (.error "Please provide an array of URLs", [])
  else
    let maxDownloads := min (jsOrNat options.maxConcurrent 3) 5
    let results := processWindows (fun u => processItem u (perItem u)) maxDownloads urls
    (.ok { results := results, summary := summarize results.length results },
     urls.map (fun u => itemRecordStates u (perItem u)))

/-- `batchDownloadVideos` (authController.js lines 517-613).  URLs that
do not classify as a social-media platform are filtered out before any
record is created (lines 530-532); the remaining URLs are processed
strictly one at a time (lines 555-600); the summary total is the count
of URLs that passed the filter (line 608). -/
def batchDownloadVideos (urls : List String)
    (perItem : String → Except String ItemSuccess) :
    Except String BatchResponse × List (List DownloadRecord) :=
  if urls = [] then (.error "Please provide an array of URLs", [])
  else if 10 < urls.length then (.error "Maximum 10 videos per batch", [])
  else
    let socialMediaUrls := urls.filter (fun u => (isSocialMediaUrl u).isSocialMedia)
    if socialMediaUrls = [] then (.error "No valid social media URLs found", [])
    else
      let results := socialMediaUrls.map (fun u => processVideoItem u (perItem u))
      (.ok { results := results, summary := summarize socialMediaUrls.length results },
       socialMediaUrls.map (fun u => itemRecordStates u (perItem u)))

/-! ## Supporting lemmas -/

theorem processWindowsAux_eq_map (f : String → ItemResult) (cap : Nat) (hcap : 1 ≤ cap) :
    ∀ (fuel : Nat) (urls : List String), urls.length ≤ fuel →
      processWindowsAux f cap fuel urls = urls.map f := by
  intro fuel
  induction fuel with
  | zero =>
    intro urls h
    cases urls with
    | nil => rfl
    | cons u rest => simp at h
  | succ n ih =>
    intro urls h
    cases urls with
    | nil => rfl
    | cons u rest =>
      have hd : ((u :: rest).drop cap).length ≤ n := by
        simp only [List.length_drop, List.length_cons] at h ⊢
        omega
      rw [processWindowsAux, ih _ hd, ← List.map_append, List.take_append_drop]

/-- With a positive window size, the windowed concurrent loop produces
exactly the per-item results in input order: each result is placed at
its input index, nothing is lost and nothing is reordered. -/
theorem processWindows_eq_map (f : String → ItemResult) (cap : Nat) (hcap : 1 ≤ cap)
    (urls : List String) : processWindows f cap urls = urls.map f :=
  processWindowsAux_eq_map f cap hcap urls.length urls (Nat.le_refl _)

theorem isPre_iff (p s : List Char) : isPre p s = true ↔ p <+: s := by
  induction p generalizing s with
  | nil => simp [isPre]
  | cons a as ih =>
    cases s with
    | nil => simp [isPre]
    | cons b bs => simp [isPre, List.cons_prefix_cons, ih]

theorem listIncludes_iff (pat s : List Char) : listIncludes pat s = true ↔ pat <:+: s := by
  induction s with
  | nil => simp [listIncludes, List.isEmpty_iff]
  | cons c rest ih =>
    simp [listIncludes, isPre_iff, ih, List.infix_cons_iff]

/-- The clamp `Math.min(options?.maxConcurrent || 3, 5)` always lands in `1..5`. -/
theorem one_le_clamp (mc : Option Nat) : 1 ≤ min (jsOrNat mc 3) 5 := by
  cases mc with
  | none => simp [jsOrNat]
  | some n =>
    by_cases h : n = 0
    · simp only [jsOrNat, if_pos h]
      omega
    · simp only [jsOrNat, if_neg h]
      omega

/-- The streaming loop started below the ceiling: it fails exactly when
the total body size pushes the running count over `maxSize`, and
otherwise counts every byte. -/
theorem streamBody_spec (maxSize : Nat) (chunks : List Nat) :
    ∀ acc, acc ≤ maxSize →
      streamBody maxSize chunks acc =
        if maxSize < acc + chunks.sum then none else some (acc + chunks.sum) := by
  induction chunks with
  | nil =>
    intro acc h
    simp [streamBody, Nat.not_lt.mpr h]
  | cons c rest ih =>
    intro acc h
    simp only [streamBody, List.sum_cons]
    by_cases hc : maxSize < acc + c
    · rw [if_pos hc, if_pos (by omega)]
    · rw [if_neg hc, ih (acc + c) (by omega)]
      simp [Nat.add_assoc]

theorem processItem_url (u : String) (o : Except String ItemSuccess) :
    (processItem u o).url = u := by
  cases o with
  | ok s => rfl
  | error e => rfl

theorem processVideoItem_url (u : String) (o : Except String ItemSuccess) :
    (processVideoItem u o).url = u := by
  cases o with
  | ok s => rfl
  | error e => rfl

theorem filter_not_length (l : List ItemResult) :
    (l.filter (fun r => r.success)).length + (l.filter (fun r => !r.success)).length
      = l.length := by
  have h := List.length_eq_length_filter_add (l := l) (fun r => r.success)
  simpa using h.symm

theorem originalNameOf_eq (disp : Option String) (url : String) :
    originalNameOf disp url =
      (if strTruthy disp then disp.getD ""
       else (urlDottedBasename url).getD "downloaded_file") := by
  have urlCase : (match parsePathname url with
      | some pathname =>
        let urlFileName : String := ⟨basenameL pathname⟩
        if !(urlFileName = "" : Bool) && strIncludes urlFileName "." then urlFileName
        else ""
      | none => "") = (urlDottedBasename url).getD "" := by
    unfold urlDottedBasename
    cases hp : parsePathname url with
    | none => simp
    | some pathname =>
      by_cases hc : (!((⟨basenameL pathname⟩ : String) = "" : Bool) &&
          strIncludes ⟨basenameL pathname⟩ ".") = true
      · simp [hc]
      · simp [hc]
  cases disp with
  | some n =>
    by_cases hn : n = ""
    · subst hn
      simp only [originalNameOf, strTruthy, Option.getD_some, if_pos rfl, urlCase]
      cases hu : urlDottedBasename url with
      | none => simp
      | some b =>
        have hb : b ≠ "" := by
          unfold urlDottedBasename at hu
          cases hp : parsePathname url with
          | none => rw [hp] at hu; simp at hu
          | some pathname =>
            rw [hp] at hu
            by_cases hc : (!((⟨basenameL pathname⟩ : String) = "" : Bool) &&
                strIncludes ⟨basenameL pathname⟩ ".") = true
            · simp only [hc, if_true] at hu
              rcases Bool.and_eq_true_iff.mp hc with ⟨h1, _⟩
              have : ¬ ((⟨basenameL pathname⟩ : String) = "") := by simpa using h1
              rw [Option.some.injEq] at hu
              exact fun hb0 => this (hu.trans hb0)
            · simp [hc] at hu
        simp [hb]
    · simp only [originalNameOf, strTruthy, Option.getD_some]
      have hnb : (!(n = "" : Bool)) = true := by simpa using hn
      simp [hn, hnb]
  | none =>
    simp only [originalNameOf, strTruthy, Option.getD_none, if_pos rfl, urlCase]
    cases hu : urlDottedBasename url with
    | none => simp
    | some b =>
      have hb : b ≠ "" := by
        unfold urlDottedBasename at hu
        cases hp : parsePathname url with
        | none => rw [hp] at hu; simp at hu
        | some pathname =>
          rw [hp] at hu
          by_cases hc : (!((⟨basenameL pathname⟩ : String) = "" : Bool) &&
              strIncludes ⟨basenameL pathname⟩ ".") = true
          · simp only [hc, if_true] at hu
            rcases Bool.and_eq_true_iff.mp hc with ⟨h1, _⟩
            have : ¬ ((⟨basenameL pathname⟩ : String) = "") := by simpa using h1
            rw [Option.some.injEq] at hu
            exact fun hb0 => this (hu.trans hb0)
          · simp [hc] at hu
      simp [hb]

theorem ctExtension_eq (contentType : String) :
    ctExtension contentType = (ctTableLookup contentType).getD "bin" := by
  unfold ctExtension ctTableLookup
  by_cases h : contentType = ""
  · simp [h]
  · cases hf : mimeMap.find? (fun e => e.1 = ctClean contentType) with
    | none => simp [h, hf]
    | some e => simp [h, hf]

theorem getFileExtension_eq (url contentType : String) :
    getFileExtension url contentType = (specExtensionChoice url contentType).getD "bin" := by
  unfold getFileExtension specExtensionChoice
  cases hp : parsePathname url with
  | none => simp
  | some pathname =>
    cases he : pathExtMatch pathname with
    | none => simp [he, ctExtension_eq]
    | some extChars =>
      by_cases hl : extChars.length ≤ 10
      · simp [he, hl]
      · simp [he, hl, ctExtension_eq]

theorem specDerivedName_eq_finalNameOf (custom disp : Option String) (url ct : String) :
    specDerivedName custom disp url ct = finalNameOf custom (originalNameOf disp url) url ct := by
  unfold specDerivedName finalNameOf specBaseName
  rw [originalNameOf_eq]
  by_cases hb : extnameEmpty (if strTruthy custom then custom.getD ""
      else sanitizeFileName (if strTruthy disp then disp.getD ""
        else (urlDottedBasename url).getD "downloaded_file")) = true
  · rw [getFileExtension_eq]
    cases hc : specExtensionChoice url ct with
    | none => simp [hb]
    | some e =>
      by_cases hbin : e = "bin"
      · simp [hb, hbin]
      · simp [hb, hbin]
  · simp only [Bool.not_eq_true] at hb
    simp [hb]

theorem altAllowed_not_invalid (a : Char) (h : altAllowedChar a = true) :
    invalidChar a = false := by
  cases hi : invalidChar a with
  | false => rfl
  | true =>
    simp only [invalidChar, Bool.or_eq_true, decide_eq_true_eq] at hi
    rcases hi with ((((((((h1|h1)|h1)|h1)|h1)|h1)|h1)|h1)|h1) <;>
      (subst h1; exact absurd h (by decide))

/-- C10 (amended): for every input, the sanitizer of downloadUtils.js
lines 91-97 returns a string of length at most 255 that contains no
`..` sequence and none of the characters `/ \ : * ? " < > |`; the
variant sanitizer of lines 328-330 guarantees the length bound and the
absence of those characters, but not the absence of `..`. -/
theorem sanitizer_output_safe :
    (∀ s : String,
       (sanitizeFileName s).length ≤ 255 ∧
       hasDotDot (sanitizeFileName s).data = false ∧
       (∀ c ∈ (sanitizeFileName s).data, invalidChar c = false)) ∧
    (∀ s : String,
       (sanitizeFileNameAlt s).length ≤ 255 ∧
       (∀ c ∈ (sanitizeFileNameAlt s).data, invalidChar c = false)) := by
  constructor
  · intro s
    refine ⟨?_, ?_, ?_⟩
    · show (((replaceDotDot s.data).map _).take 255).length ≤ 255
      rw [List.length_take]
      exact min_le_left _ _
    · apply hasDotDot_take
      apply hasDotDot_map_of_dot_reflecting
      · intro c h
        by_cases hc : invalidChar c = true
        · rw [if_pos hc] at h
          exact absurd h (by decide)
        · rwa [if_neg hc] at h
      · exact hasDotDot_replaceDotDot s.data
    · intro c hc
      have hm : c ∈ (replaceDotDot s.data).map
          (fun c => if invalidChar c then '_' else c) := List.mem_of_mem_take hc
      obtain ⟨a, _, ha⟩ := List.mem_map.mp hm
      by_cases hi : invalidChar a = true
      · rw [if_pos hi] at ha
        rw [← ha]
        decide
      · rw [if_neg hi] at ha
        rw [← ha]
        exact Bool.not_eq_true _ ▸ hi
  · intro s
    constructor
    · show ((s.data.map _).take 255).length ≤ 255
      rw [List.length_take]
      exact min_le_left _ _
    · intro c hc
      have hm : c ∈ s.data.map
          (fun c => if altAllowedChar c then c else '_') := List.mem_of_mem_take hc
      obtain ⟨a, _, ha⟩ := List.mem_map.mp hm
      by_cases hi : altAllowedChar a = true
      · rw [if_pos hi] at ha
        rw [← ha]
        exact altAllowed_not_invalid a hi
      · rw [if_neg hi] at ha
        rw [← ha]
        decide

/-- C10 counterexample: the variant sanitizer of downloadUtils.js lines
328-330 returns `".."` unchanged, so "for every input string, the
filename sanitizer returns a string that contains no `..` sequence" is
false of it. -/
theorem alt_sanitizer_keeps_dotdot :
    sanitizeFileNameAlt ".." = ".." ∧
    hasDotDot (sanitizeFileNameAlt "..").data = true := by decide

theorem sanitizer_output_safe_witness :
    (sanitizeFileName "../a:b*c").length ≤ 255 ∧
    hasDotDot (sanitizeFileName "../a:b*c").data = false ∧
    invalidChar '_' = false ∧
    (sanitizeFileNameAlt "a:b").length ≤ 255 ∧
    invalidChar 'a' = false :=
  ⟨(sanitizer_output_safe.1 "../a:b*c").1,
   (sanitizer_output_safe.1 "../a:b*c").2.1,
   (sanitizer_output_safe.1 "../a:b*c").2.2 '_' (by decide),
   (sanitizer_output_safe.2 "a:b").1,
   (sanitizer_output_safe.2 "a:b").2 'a' (by decide)⟩

/-- C3 counterexample: the classifier matches table domains by
substring containment in the hostname, not by host-suffix: the host
`youtube.com.evil.test` ends with no table domain, yet classifies as
`youtube`. -/
theorem classifier_not_suffix_based :
    isSocialMediaUrl "https://youtube.com.evil.test/watch" = ⟨true, some "youtube"⟩ ∧
    isSocialMediaUrlSuffixSpec "https://youtube.com.evil.test/watch" = ⟨false, none⟩ := by
  decide

/-- C3 (amended): the classifier decides membership from the URL's
(lower-cased) host component alone, by SUBSTRING containment of the
static table's domains in the hostname; a URL that fails to parse
classifies as not matched; the classifier is a pure function. -/
theorem classifier_host_substring_matching :
    (∀ u₁ u₂ : String, parseHostname u₁ = parseHostname u₂ →
       isSocialMediaUrl u₁ = isSocialMediaUrl u₂) ∧
    (∀ u : String, parseHostname u = none → isSocialMediaUrl u = ⟨false, none⟩) ∧
    (∀ h : String, (classifyHost h).isSocialMedia = true ↔
       ∃ p ∈ supportedPlatforms, ∃ d ∈ p.2, d.data <:+: h.data) ∧
    isSocialMediaUrl "https://m.youtube.com/watch?v=evil-instagram.com" =
      ⟨true, some "youtube"⟩ ∧
    isSocialMediaUrl "https://M.YouTube.com/watch?v=evil-instagram.com" =
      ⟨true, some "youtube"⟩ := by
  refine ⟨?_, ?_, ?_, by decide, by decide⟩
  · intro u₁ u₂ h
    unfold isSocialMediaUrl
    rw [h]
  · intro u h
    unfold isSocialMediaUrl
    rw [h]
  · intro h
    unfold classifyHost
    cases hf : supportedPlatforms.find? (fun p => p.2.any (fun d => strIncludes h d)) with
    | some p =>
      simp only []
      constructor
      · intro _
        have hmem := List.mem_of_find?_eq_some hf
        have hp := List.find?_some hf
        rw [List.any_eq_true] at hp
        obtain ⟨d, hd, hincl⟩ := hp
        exact ⟨p, hmem, d, hd, (listIncludes_iff _ _).mp hincl⟩
      · intro _
        trivial
    | none =>
      simp only []
      constructor
      · intro hfalse
        exact absurd hfalse (by decide)
      · rintro ⟨p, hmem, d, hd, hinf⟩
        have hnone := List.find?_eq_none.mp hf p hmem
        exact absurd (List.any_eq_true.mpr ⟨d, hd, (listIncludes_iff _ _).mpr hinf⟩) hnone

theorem classifier_host_substring_matching_witness :
    isSocialMediaUrl "https://youtu.be/a" = isSocialMediaUrl "https://youtu.be/b?x=1" ∧
    isSocialMediaUrl "notaurl" = ⟨false, none⟩ ∧
    ((classifyHost "vimeo.com").isSocialMedia = true ↔
       ∃ p ∈ supportedPlatforms, ∃ d ∈ p.2, d.data <:+: "vimeo.com".data) :=
  ⟨classifier_host_substring_matching.1 "https://youtu.be/a" "https://youtu.be/b?x=1" (by decide),
   classifier_host_substring_matching.2.1 "notaurl" (by decide),
   classifier_host_substring_matching.2.2.1 "vimeo.com"⟩

/-- C8: the quality selector is total: unmatched strings fall back to
the 720 mid-tier; every non-`"audio"` quality goes through the
height-cap path; `"audio"` diverts to audio extraction before any
resolution selection; the named tiers and sentinels map to their table
heights. -/
theorem quality_selector_total :
    (∀ q : String, (∀ e ∈ qualityMap, e.1 ≠ q) → parseQuality q = 720) ∧
    (∀ q : String, q ≠ "audio" → selectQualityArgs q = .heightCap (parseQuality q)) ∧
    selectQualityArgs "audio" = .audioExtract ∧
    qualityMap.map (fun e => parseQuality e.1) = qualityMap.map (fun e => e.2) := by
  refine ⟨?_, ?_, by decide, by decide⟩
  · intro q hq
    unfold parseQuality
    have hf : qualityMap.find? (fun e => e.1 = q) = none :=
      List.find?_eq_none.mpr (fun e he => by simpa using hq e he)
    rw [hf]
  · intro q hq
    unfold selectQualityArgs
    rw [if_neg hq]

theorem quality_selector_total_witness :
    parseQuality "4k" = 720 ∧
    selectQualityArgs "480p" = .heightCap (parseQuality "480p") :=
  ⟨quality_selector_total.1 "4k" (by decide),
   quality_selector_total.2.1 "480p" (by decide)⟩

/-- C6: for a `youtube`-classified URL the native client is tried
first and any failure falls back transparently to yt-dlp, the caller
observing only the final outcome; every other classified platform uses
only yt-dlp; an unclassified URL fails with neither client attempted. -/
theorem youtube_fallback_dispatch (url : String)
    (ytdlCoreOutcome ytdlpOutcome : Except String ItemSuccess) :
    ((isSocialMediaUrl url).platform = some "youtube" →
       (∀ r, ytdlCoreOutcome = .ok r →
          downloadVideo url ytdlCoreOutcome ytdlpOutcome = (.ok r, [.ytdlCore])) ∧
       (∀ e, ytdlCoreOutcome = .error e →
          downloadVideo url ytdlCoreOutcome ytdlpOutcome =
            (ytdlpOutcome, [.ytdlCore, .ytdlp]))) ∧
    (∀ p, (isSocialMediaUrl url).platform = some p → p ≠ "youtube" →
       downloadVideo url ytdlCoreOutcome ytdlpOutcome = (ytdlpOutcome, [.ytdlp])) ∧
    ((isSocialMediaUrl url).platform = none →
       downloadVideo url ytdlCoreOutcome ytdlpOutcome =
         (.error "URL is not from a supported social media platform", [])) := by
  refine ⟨fun hyt => ⟨?_, ?_⟩, ?_, ?_⟩
  · intro r hr
    unfold downloadVideo
    rw [hyt, hr]
    simp
  · intro e he
    unfold downloadVideo
    rw [hyt, he]
    simp
  · intro p hp hne
    unfold downloadVideo
    rw [hp]
    simp [hne]
  · intro hnone
    unfold downloadVideo
    rw [hnone]

theorem youtube_fallback_dispatch_witness :
    downloadVideo "https://www.youtube.com/watch?v=z" (.error "nope") (.ok ⟨"f", 2, 3⟩) =
      (.ok ⟨"f", 2, 3⟩, [.ytdlCore, .ytdlp]) ∧
    downloadVideo "https://vimeo.com/1" (.error "nope") (.ok ⟨"f", 2, 3⟩) =
      (.ok ⟨"f", 2, 3⟩, [.ytdlp]) ∧
    downloadVideo "https://example.com/1" (.ok ⟨"g", 1, 0⟩) (.ok ⟨"f", 2, 3⟩) =
      (.error "URL is not from a supported social media platform", []) :=
  ⟨((youtube_fallback_dispatch "https://www.youtube.com/watch?v=z" (.error "nope")
      (.ok ⟨"f", 2, 3⟩)).1 (by decide)).2 "nope" rfl,
   (youtube_fallback_dispatch "https://vimeo.com/1" (.error "nope")
      (.ok ⟨"f", 2, 3⟩)).2.1 "vimeo" (by decide) (by decide),
   (youtube_fallback_dispatch "https://example.com/1" (.ok ⟨"g", 1, 0⟩)
      (.ok ⟨"f", 2, 3⟩)).2.2 (by decide)⟩

theorem map_url_of_mk (pi : String → ItemResult) (hpi : ∀ u, (pi u).url = u)
    (urls : List String) : (urls.map pi).map (fun r => r.url) = urls := by
  induction urls with
  | nil => rfl
  | cons u rest ih => simp [hpi, ih]

/-- Evaluation of `downloadMultiple` on a non-empty URL list: the
response and records are index-aligned maps over the input. -/
theorem downloadMultiple_ok (urls : List String) (options : MultiOptions)
    (perItem : String → Except String ItemSuccess) (h : urls ≠ []) :
    downloadMultiple urls options perItem =
      (.ok { results := urls.map (fun u => processItem u (perItem u)),
             summary := summarize (urls.map (fun u => processItem u (perItem u))).length
                          (urls.map (fun u => processItem u (perItem u))) },
       urls.map (fun u => itemRecordStates u (perItem u))) := by
  simp only [downloadMultiple, if_neg h]
  rw [processWindows_eq_map _ _ (one_le_clamp _) urls]

/-- Evaluation of `batchDownloadVideos` when validation passes and at
least one URL survives the platform filter. -/
theorem batchDownloadVideos_ok (urls : List String)
    (perItem : String → Except String ItemSuccess)
    (h1 : urls ≠ []) (h2 : urls.length ≤ 10)
    (h3 : urls.filter (fun u => (isSocialMediaUrl u).isSocialMedia) ≠ []) :
    batchDownloadVideos urls perItem =
      (.ok { results := (urls.filter (fun u => (isSocialMediaUrl u).isSocialMedia)).map
                          (fun u => processVideoItem u (perItem u)),
             summary := summarize
               (urls.filter (fun u => (isSocialMediaUrl u).isSocialMedia)).length
               ((urls.filter (fun u => (isSocialMediaUrl u).isSocialMedia)).map
                 (fun u => processVideoItem u (perItem u))) },
       (urls.filter (fun u => (isSocialMediaUrl u).isSocialMedia)).map
         (fun u => itemRecordStates u (perItem u))) := by
  simp only [batchDownloadVideos, if_neg h1,
    if_neg (by omega : ¬ 10 < urls.length), if_neg h3]

/-- C1: for every valid non-empty input of at most 10 URLs (all
platform-classified, as the video path requires), both batch endpoints
return one result entry per input URL, carrying the input URL at its
input position — the per-entry placement is by input index (the window
map), never by completion order. -/
theorem batch_results_match_input_urls (urls : List String) (options : MultiOptions)
    (perItem : String → Except String ItemSuccess)
    (h1 : urls ≠ []) (h2 : urls.length ≤ 10)
    (h3 : ∀ u ∈ urls, (isSocialMediaUrl u).isSocialMedia = true) :
    (∃ resp, (downloadMultiple urls options perItem).1 = .ok resp ∧
       resp.results.length = urls.length ∧
       resp.results.map (fun r => r.url) = urls) ∧
    (∃ vresp, (batchDownloadVideos urls perItem).1 = .ok vresp ∧
       vresp.results.length = urls.length ∧
       vresp.results.map (fun r => r.url) = urls) := by
  have hfilter : urls.filter (fun u => (isSocialMediaUrl u).isSocialMedia) = urls :=
    List.filter_eq_self.mpr h3
  constructor
  · rw [downloadMultiple_ok urls options perItem h1]
    refine ⟨_, rfl, by rw [List.length_map], ?_⟩
    exact map_url_of_mk _ (fun u => processItem_url u (perItem u)) urls
  · rw [batchDownloadVideos_ok urls perItem h1 h2 (by rw [hfilter]; exact h1)]
    rw [hfilter]
    refine ⟨_, rfl, by rw [List.length_map], ?_⟩
    exact map_url_of_mk _ (fun u => processVideoItem_url u (perItem u)) urls

theorem batch_results_match_input_urls_witness :
    (∃ resp, (downloadMultiple ["https://youtu.be/a", "https://vimeo.com/1"] {}
        (fun _ => Except.error "x")).1 = .ok resp ∧
       resp.results.length = 2 ∧
       resp.results.map (fun r => r.url) = ["https://youtu.be/a", "https://vimeo.com/1"]) ∧
    (∃ vresp, (batchDownloadVideos ["https://youtu.be/a", "https://vimeo.com/1"]
        (fun _ => Except.error "x")).1 = .ok vresp ∧
       vresp.results.length = 2 ∧
       vresp.results.map (fun r => r.url) = ["https://youtu.be/a", "https://vimeo.com/1"]) :=
  batch_results_match_input_urls ["https://youtu.be/a", "https://vimeo.com/1"] {}
    (fun _ => Except.error "x") (by decide) (by decide) (by decide)

/-- C4: a batch item's record is saved only along
pending → downloading → {completed, failed}; the one terminal state is
the final save (with completion fields on success, an error string on
failure) and is never followed by another save; `downloadSingle`
likewise moves its record only forward to one terminal state; and every
URL of a batch is executed and recorded no matter how the other items'
downloads end (fault isolation). -/
theorem record_lifecycle_forward_only :
    (∀ (url : String) (outcome : Except String ItemSuccess),
       List.Chain' (fun a b => allowedStep a.status b.status = true)
         (itemRecordStates url outcome) ∧
       (∃ last, (itemRecordStates url outcome).getLast? = some last ∧
          isTerminal last.status = true ∧
          (last.status = .completed →
             last.fileName.isSome = true ∧ last.fileSize.isSome = true ∧
             last.completedAt = true) ∧
          (last.status = .failed → last.error.isSome = true)) ∧
       (∀ r ∈ (itemRecordStates url outcome).dropLast, isTerminal r.status = false)) ∧
    (∀ (url : String) (fileName : Option String) (outcome : Except String ItemSuccess),
       List.Chain' (fun a b => allowedStep a.status b.status = true)
         (singleRecordStates url fileName outcome) ∧
       (∃ last, (singleRecordStates url fileName outcome).getLast? = some last ∧
          isTerminal last.status = true ∧
          (last.status = .completed →
             last.fileName.isSome = true ∧ last.fileSize.isSome = true ∧
             last.completedAt = true) ∧
          (last.status = .failed → last.error.isSome = true)) ∧
       (∀ r ∈ (singleRecordStates url fileName outcome).dropLast,
          isTerminal r.status = false)) ∧
    (∀ (urls : List String) (options : MultiOptions)
       (perItem : String → Except String ItemSuccess), urls ≠ [] →
       (downloadMultiple urls options perItem).2 =
         urls.map (fun u => itemRecordStates u (perItem u)) ∧
       ∃ resp, (downloadMultiple urls options perItem).1 = .ok resp ∧
         resp.results = urls.map (fun u => processItem u (perItem u))) := by
  refine ⟨?_, ?_, ?_⟩
  · intro url outcome
    cases outcome with
    | ok s =>
      refine ⟨?_, ?_, ?_⟩
      · simp [itemRecordStates, List.chain'_cons, allowedStep]
      · refine ⟨{ fileUrl := url, status := .completed, fileName := some s.fileName,
                  fileSize := some s.fileSize, completedAt := true },
                rfl, rfl, fun _ => ⟨rfl, rfl, rfl⟩, ?_⟩
        intro hc
        simp at hc
      · intro r hr
        simp only [itemRecordStates, List.dropLast, List.mem_cons,
          List.mem_singleton] at hr
        rcases hr with h | h | h
        · rw [h]; rfl
        · rw [h]; rfl
        · exact absurd h (by simp)
    | error e =>
      refine ⟨?_, ?_, ?_⟩
      · simp [itemRecordStates, List.chain'_cons, allowedStep]
      · refine ⟨{ fileUrl := url, status := .failed, error := some e },
                rfl, rfl, ?_, fun _ => rfl⟩
        intro hc
        simp at hc
      · intro r hr
        simp only [itemRecordStates, List.dropLast, List.mem_cons,
          List.mem_singleton] at hr
        rcases hr with h | h | h
        · rw [h]; rfl
        · rw [h]; rfl
        · exact absurd h (by simp)
  · intro url fileName outcome
    cases outcome with
    | ok s =>
      refine ⟨?_, ?_, ?_⟩
      · simp [singleRecordStates, List.chain'_cons, allowedStep]
      · refine ⟨{ fileUrl := url, status := .completed, fileName := some s.fileName,
                  fileSize := some s.fileSize, completedAt := true },
                rfl, rfl, fun _ => ⟨rfl, rfl, rfl⟩, ?_⟩
        intro hc
        simp at hc
      · intro r hr
        simp only [singleRecordStates, List.dropLast, List.mem_cons,
          List.mem_singleton] at hr
        rcases hr with h | h
        · rw [h]; rfl
        · exact absurd h (by simp)
    | error e =>
      refine ⟨?_, ?_, ?_⟩
      · simp [singleRecordStates, List.chain'_cons, allowedStep]
      · refine ⟨{ fileUrl := url, status := .failed,
                  fileName := some (if strTruthy fileName then fileName.getD ""
                                    else "pending"),
                  error := some e },
                rfl, rfl, ?_, fun _ => rfl⟩
        intro hc
        simp at hc
      · intro r hr
        simp only [singleRecordStates, List.dropLast, List.mem_cons,
          List.mem_singleton] at hr
        rcases hr with h | h
        · rw [h]; rfl
        · exact absurd h (by simp)
  · intro urls options perItem h
    rw [downloadMultiple_ok urls options perItem h]
    exact ⟨rfl, _, rfl, rfl⟩

theorem record_lifecycle_forward_only_witness :
    isTerminal ({ fileUrl := "https://a.test/x", status := .pending } : DownloadRecord).status
      = false ∧
    ((downloadMultiple ["https://a.test/x"] {} (fun _ => Except.error "x")).2 =
       [itemRecordStates "https://a.test/x" (Except.error "x")]) :=
  ⟨(record_lifecycle_forward_only.1 "https://a.test/x" (Except.error "x")).2.2
      { fileUrl := "https://a.test/x", status := .pending } (by decide),
   ((record_lifecycle_forward_only.2.2 ["https://a.test/x"] {} (fun _ => Except.error "x")
      (by decide)).1)⟩

theorem batchDownloadVideos_empty (perItem : String → Except String ItemSuccess) :
    batchDownloadVideos [] perItem = (.error "Please provide an array of URLs", []) := rfl

theorem batchDownloadVideos_tooMany (urls : List String)
    (perItem : String → Except String ItemSuccess) (h1 : urls ≠ [])
    (h2 : 10 < urls.length) :
    batchDownloadVideos urls perItem = (.error "Maximum 10 videos per batch", []) := by
  simp only [batchDownloadVideos, if_neg h1, if_pos h2]

theorem batchDownloadVideos_noValid (urls : List String)
    (perItem : String → Except String ItemSuccess) (h1 : urls ≠ [])
    (h2 : urls.length ≤ 10)
    (h3 : urls.filter (fun u => (isSocialMediaUrl u).isSocialMedia) = []) :
    batchDownloadVideos urls perItem =
      (.error "No valid social media URLs found", []) := by
  simp only [batchDownloadVideos, if_neg h1,
    if_neg (by omega : ¬ 10 < urls.length), if_pos h3]

/-- C7: in every batch summary returned by either endpoint,
`successful + failed = total`, and the three counts are re-derived
from the results sequence: the total is its length, `successful` the
count of `success = true` entries, `failed` the remainder. -/
theorem summary_counts_consistent :
    (∀ (urls : List String) (options : MultiOptions)
       (perItem : String → Except String ItemSuccess) (resp : BatchResponse),
       (downloadMultiple urls options perItem).1 = .ok resp →
       resp.summary.successful + resp.summary.failed = resp.summary.total ∧
       resp.summary.total = resp.results.length ∧
       resp.summary.successful = (resp.results.filter (fun r => r.success)).length ∧
       resp.summary.failed = (resp.results.filter (fun r => !r.success)).length) ∧
    (∀ (urls : List String) (perItem : String → Except String ItemSuccess)
       (resp : BatchResponse),
       (batchDownloadVideos urls perItem).1 = .ok resp →
       resp.summary.successful + resp.summary.failed = resp.summary.total ∧
       resp.summary.total = resp.results.length ∧
       resp.summary.successful = (resp.results.filter (fun r => r.success)).length ∧
       resp.summary.failed = (resp.results.filter (fun r => !r.success)).length) := by
  constructor
  · intro urls options perItem resp h
    by_cases hempty : urls = []
    · rw [hempty] at h
      simp [downloadMultiple] at h
    · rw [downloadMultiple_ok urls options perItem hempty] at h
      rw [Except.ok.injEq] at h
      rw [← h]
      exact ⟨filter_not_length _, rfl, rfl, rfl⟩
  · intro urls perItem resp h
    by_cases hempty : urls = []
    · rw [hempty, batchDownloadVideos_empty] at h
      simp at h
    · by_cases hlen : urls.length ≤ 10
      · by_cases hfil : urls.filter (fun u => (isSocialMediaUrl u).isSocialMedia) = []
        · rw [batchDownloadVideos_noValid urls perItem hempty hlen hfil] at h
          simp at h
        · rw [batchDownloadVideos_ok urls perItem hempty hlen hfil] at h
          rw [Except.ok.injEq] at h
          rw [← h]
          exact ⟨(filter_not_length _).trans (List.length_map _ _),
                 (List.length_map _ _).symm, rfl, rfl⟩
      · rw [batchDownloadVideos_tooMany urls perItem hempty (by omega)] at h
        simp at h

theorem summary_counts_consistent_witness :
    (∃ resp, (downloadMultiple ["https://a.test/x"] {}
        (fun _ => Except.ok ⟨"f", 2, 0⟩)).1 = .ok resp ∧
      (resp.summary.successful + resp.summary.failed = resp.summary.total ∧
       resp.summary.total = resp.results.length ∧
       resp.summary.successful = (resp.results.filter (fun r => r.success)).length ∧
       resp.summary.failed = (resp.results.filter (fun r => !r.success)).length)) ∧
    (∃ vresp, (batchDownloadVideos ["https://youtu.be/a"]
        (fun _ => Except.error "x")).1 = .ok vresp ∧
      vresp.summary.successful + vresp.summary.failed = vresp.summary.total) :=
  ⟨⟨_, rfl, summary_counts_consistent.1 ["https://a.test/x"] {}
      (fun _ => Except.ok ⟨"f", 2, 0⟩) _ rfl⟩,
   ⟨_, rfl, (summary_counts_consistent.2 ["https://youtu.be/a"]
      (fun _ => Except.error "x") _ rfl).1⟩⟩

/-- C9: in the video batch endpoint, unclassified URLs are silently
dropped before any record is created: the results and the created
records cover exactly the URLs that passed the filter, every returned
entry belongs to a classified URL, the summary total counts the
filtered URLs, and the batch as a whole fails with a caller error
exactly when no input URL classifies. -/
theorem video_batch_filters_silently (urls : List String)
    (perItem : String → Except String ItemSuccess)
    (h1 : urls ≠ []) (h2 : urls.length ≤ 10) :
    ((∀ u ∈ urls, (isSocialMediaUrl u).isSocialMedia = false) →
       batchDownloadVideos urls perItem =
         (.error "No valid social media URLs found", [])) ∧
    ((∃ u ∈ urls, (isSocialMediaUrl u).isSocialMedia = true) →
       ∃ resp, (batchDownloadVideos urls perItem).1 = .ok resp ∧
         resp.results.map (fun r => r.url) =
           urls.filter (fun u => (isSocialMediaUrl u).isSocialMedia) ∧
         resp.summary.total =
           (urls.filter (fun u => (isSocialMediaUrl u).isSocialMedia)).length ∧
         (∀ r ∈ resp.results, (isSocialMediaUrl r.url).isSocialMedia = true) ∧
         (batchDownloadVideos urls perItem).2 =
           (urls.filter (fun u => (isSocialMediaUrl u).isSocialMedia)).map
             (fun u => itemRecordStates u (perItem u))) := by
  constructor
  · intro hall
    have hfil : urls.filter (fun u => (isSocialMediaUrl u).isSocialMedia) = [] := by
      rw [List.filter_eq_nil_iff]
      intro u hu
      simp [hall u hu]
    exact batchDownloadVideos_noValid urls perItem h1 h2 hfil
  · rintro ⟨u, hu, hcls⟩
    have hfil : urls.filter (fun u => (isSocialMediaUrl u).isSocialMedia) ≠ [] := by
      intro hnil
      have hmem : u ∈ urls.filter (fun u => (isSocialMediaUrl u).isSocialMedia) :=
        List.mem_filter.mpr ⟨hu, hcls⟩
      rw [hnil] at hmem
      exact absurd hmem (List.not_mem_nil u)
    rw [batchDownloadVideos_ok urls perItem h1 h2 hfil]
    refine ⟨_, rfl, ?_, rfl, ?_, rfl⟩
    · exact map_url_of_mk _ (fun v => processVideoItem_url v (perItem v)) _
    · intro r hr
      obtain ⟨v, hv, hveq⟩ := List.mem_map.mp hr
      rw [← hveq, processVideoItem_url]
      exact (List.mem_filter.mp hv).2

theorem video_batch_filters_silently_witness :
    batchDownloadVideos ["https://example.com/b"] (fun _ => Except.error "x") =
      (.error "No valid social media URLs found", []) ∧
    (∃ resp, (batchDownloadVideos ["https://youtu.be/a", "https://example.com/b"]
        (fun _ => Except.error "x")).1 = .ok resp ∧
       resp.results.map (fun r => r.url) =
         (["https://youtu.be/a", "https://example.com/b"].filter
           (fun u => (isSocialMediaUrl u).isSocialMedia)) ∧
       resp.summary.total =
         (["https://youtu.be/a", "https://example.com/b"].filter
           (fun u => (isSocialMediaUrl u).isSocialMedia)).length ∧
       (∀ r ∈ resp.results, (isSocialMediaUrl r.url).isSocialMedia = true) ∧
       (batchDownloadVideos ["https://youtu.be/a", "https://example.com/b"]
          (fun _ => Except.error "x")).2 =
         (["https://youtu.be/a", "https://example.com/b"].filter
           (fun u => (isSocialMediaUrl u).isSocialMedia)).map
           (fun u => itemRecordStates u (Except.error "x"))) :=
  ⟨(video_batch_filters_silently ["https://example.com/b"]
      (fun _ => Except.error "x") (by decide) (by decide)).1 (by decide),
   (video_batch_filters_silently ["https://youtu.be/a", "https://example.com/b"]
      (fun _ => Except.error "x") (by decide) (by decide)).2
      ⟨"https://youtu.be/a", by decide, by decide⟩⟩

theorem downloadFile_badStatus (url : String) (options : DownloadOptions)
    (tempFileName : String) (r : HttpResponse) (h : r.status ≠ 200) :
    downloadFile url options tempFileName (.ok r) =
      (.failed ("HTTP " ++ toString r.status ++ ": " ++ r.statusText), false) := by
  simp only [downloadFile, if_pos h]

theorem downloadFile_unsupported (url : String) (options : DownloadOptions)
    (tempFileName : String) (r : HttpResponse) (h200 : r.status = 200)
    (h : isSupportedFileType (r.contentType.getD "") = false) :
    downloadFile url options tempFileName (.ok r) =
      (.failed "Unsupported file type", false) := by
  simp [downloadFile, h200, h]

theorem downloadFile_headerTooBig (url : String) (options : DownloadOptions)
    (tempFileName : String) (r : HttpResponse) (h200 : r.status = 200)
    (hsup : isSupportedFileType (r.contentType.getD "") = true)
    (hcl : contentLengthExceeds r.contentLength options.maxSize = true) :
    downloadFile url options tempFileName (.ok r) =
      (.failed ("File size exceeds limit of " ++
                toString (options.maxSize / (1024 * 1024)) ++ "MB"), false) := by
  simp [downloadFile, h200, hsup, hcl]

/-- After the status, content-type and content-length checks pass, the
outcome of `downloadFile` is decided by the streaming loop alone. -/
theorem downloadFile_cases (url : String) (options : DownloadOptions)
    (tempFileName : String) (r : HttpResponse) (h200 : r.status = 200)
    (hsup : isSupportedFileType (r.contentType.getD "") = true)
    (hcl : contentLengthExceeds r.contentLength options.maxSize = false) :
    downloadFile url options tempFileName (.ok r) =
      match streamBody options.maxSize r.chunks 0 with
      | none => (.crashed "File size exceeded during download", true)
      | some fileSize =>
        (.ok { filePath := tempDirPath ++ "/" ++ tempFileName ++ "_" ++
                 finalNameOf options.customFileName
                   (originalNameOf r.dispositionName url) url (r.contentType.getD ""),
               fileName := finalNameOf options.customFileName
                 (originalNameOf r.dispositionName url) url (r.contentType.getD ""),
               fileSize := fileSize, contentType := r.contentType.getD "",
               originalUrl := url }, true) := by
  simp [downloadFile, h200, hsup, hcl]

/-- The general form of the mid-stream size violation: whenever the
checks pass and the body totals more than the ceiling, the attempt
ends in the in-handler throw — a crash with the partial temp file left
on disk — regardless of what the content-length header claimed. -/
theorem downloadFile_sizeExceeded (url : String) (options : DownloadOptions)
    (tempFileName : String) (r : HttpResponse) (h200 : r.status = 200)
    (hsup : isSupportedFileType (r.contentType.getD "") = true)
    (hcl : contentLengthExceeds r.contentLength options.maxSize = false)
    (hsum : options.maxSize < r.chunks.sum) :
    downloadFile url options tempFileName (.ok r) =
      (.crashed "File size exceeded during download", true) := by
  rw [downloadFile_cases url options tempFileName r h200 hsup hcl]
  rw [streamBody_spec options.maxSize r.chunks 0 (Nat.zero_le _)]
  rw [if_pos (by simpa using hsum)]

/-- C2 (code bug): the running byte count does abort the transfer the
moment it exceeds `maxSize` (both streams are destroyed, lines
176-177), but the subsequent `throw` fires inside the stream `'data'`
event handler and can never reach `downloadFile`'s catch block: it
escapes to the process-level `uncaughtException` handler of the server
entry point, which logs and exits the process.  So on exactly the path
the claim asserts — a real body larger than `maxSize` behind an absent
or understated content-length header — no failure is surfaced to the
caller and the partial temp file is left on disk, against the claim's
(and the spec's) "the partial temporary file is deleted, and a failure
is surfaced".  Evaluated at the failing input: the header claims 5
bytes, the body streams 8 + 7 = 15, the ceiling is 10. -/
theorem size_ceiling_crash_leaves_temp :
    downloadFile "https://x.test/big" { maxSize := 10 } "t1"
      (.ok { contentLength := some 5, chunks := [8, 7] }) =
      (.crashed "File size exceeded during download", true) ∧
    (∀ e, downloadFile "https://x.test/big" { maxSize := 10 } "t1"
       (.ok { contentLength := some 5, chunks := [8, 7] }) ≠ (.failed e, false)) := by
  constructor
  · decide
  · intro e h
    rw [show downloadFile "https://x.test/big" { maxSize := 10 } "t1"
          (.ok { contentLength := some 5, chunks := [8, 7] }) =
          (.crashed "File size exceeded during download", true) from by decide] at h
    simp at h

/-- C5 counterexample: with a caller-supplied extensionless name, a URL
path ending in `.mp4` and a `text/plain` response, the source derives
`report.mp4` (extension taken from the URL path first), while the claim
("an extension is appended by mapping the response content-type through
a known extension table") predicts `report.txt`; and for a URL whose
last path segment `report` has no dot, the source uses the generated
fallback name instead of the segment. -/
theorem extension_not_content_type_only :
    (downloadFile "https://x.test/video.mp4" { customFileName := some "report" } "t0"
       (.ok { contentType := some "text/plain", chunks := [3] })).1 =
      .ok { filePath := "temp/t0_report.mp4", fileName := "report.mp4",
            fileSize := 3, contentType := "text/plain",
            originalUrl := "https://x.test/video.mp4" } ∧
    claimC5Name (some "report") none "https://x.test/video.mp4" "text/plain" =
      "report.txt" ∧
    ¬ ("report.mp4" = "report.txt") ∧
    parsePathname "https://x.test/report" = some "/report".data ∧
    basenameL "/report".data = "report".data ∧
    (downloadFile "https://x.test/report" {} "t5" (.ok { chunks := [1] })).1 =
      .ok { filePath := "temp/t5_downloaded_file", fileName := "downloaded_file",
            fileSize := 1, contentType := "",
            originalUrl := "https://x.test/report" } ∧
    ¬ ("downloaded_file" = "report") := by
  decide

/-- C5 (amended): every successful fetch's filename equals the
priority derivation: a non-empty caller-supplied name wins over the
Content-Disposition name, which wins over the URL's last path segment
(used only when it contains a dot), which wins over the generated
fallback; a name without an extension gets one appended, sourced first
from the URL path's extension (lower-cased, at most 10 characters) and
only then from the content-type table; an unknown content-type (with no
usable URL extension) appends nothing. -/
theorem filename_priority_derivation (url : String) (options : DownloadOptions)
    (tempFileName : String) (r : HttpResponse) (res : FileResult) (remains : Bool)
    (h : downloadFile url options tempFileName (.ok r) = (.ok res, remains)) :
    res.fileName =
      specDerivedName options.customFileName r.dispositionName url
        (r.contentType.getD "") := by
  by_cases h200 : r.status = 200
  · by_cases hsup : isSupportedFileType (r.contentType.getD "") = true
    · by_cases hcl : contentLengthExceeds r.contentLength options.maxSize = true
      · rw [downloadFile_headerTooBig url options tempFileName r h200 hsup hcl] at h
        simp at h
      · rw [downloadFile_cases url options tempFileName r h200 hsup
          (by simpa using hcl)] at h
        cases hsb : streamBody options.maxSize r.chunks 0 with
        | none =>
          rw [hsb] at h
          simp at h
        | some n =>
          rw [hsb] at h
          rw [Prod.mk.injEq] at h
          obtain ⟨h1, _⟩ := h
          rw [FetchOutcome.ok.injEq] at h1
          rw [← h1]
          exact (specDerivedName_eq_finalNameOf _ _ _ _).symm
    · rw [downloadFile_unsupported url options tempFileName r h200
        (by simpa using hsup)] at h
      simp at h
  · rw [downloadFile_badStatus url options tempFileName r h200] at h
    simp at h

theorem filename_priority_derivation_witness :
    downloadFile "https://x.test/a" {} "t7"
      (.ok { dispositionName := some "doc", contentType := some "application/pdf",
             chunks := [4] }) =
      (.ok { filePath := "temp/t7_doc.pdf", fileName := "doc.pdf", fileSize := 4,
             contentType := "application/pdf", originalUrl := "https://x.test/a" },
       true) ∧
    ({ filePath := "temp/t7_doc.pdf", fileName := "doc.pdf", fileSize := 4,
       contentType := "application/pdf",
       originalUrl := "https://x.test/a" } : FileResult).fileName =
      specDerivedName none (some "doc") "https://x.test/a" "application/pdf" :=
  ⟨by decide,
   filename_priority_derivation "https://x.test/a" {} "t7"
     { dispositionName := some "doc", contentType := some "application/pdf",
       chunks := [4] }
     { filePath := "temp/t7_doc.pdf", fileName := "doc.pdf", fileSize := 4,
       contentType := "application/pdf", originalUrl := "https://x.test/a" }
     true (by decide)⟩

end Docuphile
